import Mathlib

/-!
Shallow embedding of `scripts/benchmark.py` (riwsky/iosef), the benchmark
orchestration script comparing a locally built Swift binary against reference
implementations (Node MCP server, idb, and a jj-staged baseline revision of
the same binary).

External process outcomes (jj commands, swift build, smoke tests, hyperfine)
are modelled as boolean fields of an `Env` record; the script's control flow
becomes a pure function from configuration and environment to an exit code
plus a trace of filesystem/process actions.  Floating-point means from
hyperfine JSON files are modelled as rationals.
-/

namespace Iosef

set_option maxRecDepth 40000

/-- A scalar parameter value, as passed in the Python parameter dicts
(`x`/`y` are integers, `udid` is a string). -/
inductive Val
  | int (n : Int)
  | str (s : String)
  deriving DecidableEq, Repr

/-- A Python dict of tool parameters, as an insertion-ordered association
list (Python 3.7+ dicts preserve insertion order). -/
abbrev Params := List (String × Val)

/-- Python dict update `\x7b**ps, k: v\x7d`: if `k` is already a key its value is
replaced in place, otherwise `(k, v)` is appended at the end. -/
def dictInsert (ps : Params) (k : String) (v : Val) : Params :=
  if ps.any (fun p => p.1 == k) then
    ps.map (fun p => if p.1 == k then (k, v) else p)
  else
    ps ++ [(k, v)]

/-- Number of entries of the association list carrying the key `k`. -/
def countKey (k : String) (ps : Params) : Nat :=
  (ps.filter (fun p => p.1 == k)).length

/-- `TOOLS` from benchmark.py: MCP-level benchmark tools
`(tool_name, extra_params_or_None)`. -/
def TOOLS : List (String × Option Params) :=
  [ ("get_booted_sim_id", none),
    ("describe_all", none),
    ("describe_point", some [("x", .int 165), ("y", .int 269)]),
    ("tap", some [("x", .int 165), ("y", .int 269)]),
    ("view", none) ]

/-- JSON serialization of a scalar (as `json.dumps` renders it). -/
def valJson : Val → String
  | .int n => toString n
  | .str s => "\"" ++ s ++ "\""

/-- JSON serialization of a parameter dict, mirroring `json.dumps` default
formatting: `\x7b"k": v, ...\x7d`. -/
def paramsJson (ps : Params) : String :=
  "\x7b" ++ String.intercalate ", " (ps.map (fun p => "\"" ++ p.1 ++ "\": " ++ valJson p.2)) ++ "\x7d"

/-- The parameter dict that `mcp_call_cmd` serializes: params plus the udid,
a synthesized `\x7b"udid": udid\x7d` for parameterless tools other than
`get_booted_sim_id`, and `None` for `get_booted_sim_id` itself. -/
def mcpParams (tool : String) (params : Option Params) (udid : String) : Option Params :=
  match params with
  | some ps => some (dictInsert ps "udid" (.str udid))
  | none => if tool ≠ "get_booted_sim_id" then some [("udid", .str udid)] else none

/-- The `perl -e 'alarm 5; exec @ARGV' --` 5-second timeout wrapper used in
place of coreutils `timeout` (absent on macOS). -/
def perlWrap (cmd : String) : String :=
  "perl -e \x27alarm 5; exec @ARGV\x27 -- " ++ cmd

/-- `mcp_call_cmd` from benchmark.py: build the `mcp call` command string,
injecting the udid into the params. -/
def mcp_call_cmd (tool : String) (params : Option Params) (udid : String)
    (serverCmd : String) : String :=
  let p := mcpParams tool params udid
  let cmd := perlWrap ("mcp call " ++ tool)
  let cmd :=
    match p with
    | some ps => if ps ≠ [] then cmd ++ " -p \x27" ++ paramsJson ps ++ "\x27" else cmd
    | none => cmd
  cmd ++ " " ++ serverCmd

/-- Number of (possibly overlapping) occurrences of `pat` as a contiguous
substring of `s`, counted over character lists. -/
def countOccs (pat : List Char) : List Char → Nat
  | [] => 0
  | c :: rest => (if pat.isPrefixOf (c :: rest) then 1 else 0) + countOccs pat rest

/-- `CLI_TOOLS` from benchmark.py: CLI-level benchmark tools
`(display_name, swift_cli_template, baseline_template, baseline_label)`.
The Python `str.format` templates over `\x7budid\x7d`, `\x7bswift_bin\x7d`, `\x7bidb\x7d` are
embedded as the corresponding string-building functions. -/
def CLI_TOOLS : List (String × (String → String → String) × (String → String → String) × String) :=
  [ ("describe_all",
      fun swiftBin udid => swiftBin ++ " describe_all --udid " ++ udid,
      fun idb udid => idb ++ " ui describe-all --udid " ++ udid ++ " --json",
      "idb"),
    ("describe_point",
      fun swiftBin udid => swiftBin ++ " describe_point --x 165 --y 269 --udid " ++ udid,
      fun idb udid => idb ++ " ui describe-point --udid " ++ udid ++ " --json -- 165 269",
      "idb"),
    ("tap",
      fun swiftBin udid => swiftBin ++ " tap --x 165 --y 269 --udid " ++ udid,
      fun idb udid => idb ++ " ui tap --udid " ++ udid ++ " --json -- 165 269",
      "idb"),
    ("screenshot",
      fun swiftBin udid => swiftBin ++ " view --udid " ++ udid,
      fun _idb udid => "xcrun simctl io " ++ udid ++ " screenshot --type=png /tmp/bench_ss.png",
      "simctl") ]

/-- The ordered `(label, command)` candidate list that `bench` hands to
hyperfine for one MCP tool: the `--reference`/`--reference-name` pair first
(primary), then the self-baseline `--command-name` pair when a baseline
binary is present, then the node `--command-name` pair when the node
pre-check succeeded. -/
def benchCandidates (tool : String) (params : Option Params) (udid swiftCmd nodeCmd : String)
    (baselineSwiftCmd : Option String) (baselineLabel : String) (nodeOk : Bool) :
    List (String × String) :=
  let swiftFull := mcp_call_cmd tool params udid swiftCmd
  let currentName := if baselineSwiftCmd.isSome then "swift (current)" else "swift"
  [(currentName ++ ": " ++ tool, swiftFull)] ++
  (match baselineSwiftCmd with
   | some b => [("swift (" ++ baselineLabel ++ "): " ++ tool, mcp_call_cmd tool params udid b)]
   | none => []) ++
  (if nodeOk then [("node: " ++ tool, mcp_call_cmd tool params udid nodeCmd)] else [])

/-- The ordered `(label, command)` candidate list that `cli_bench` hands to
hyperfine for one CLI tool: the perl-alarm-wrapped Swift CLI command first
(primary), then the self-baseline when present, then the external baseline
(idb/simctl) when its pre-check succeeded. -/
def cliBenchCandidates (name swiftCmd baselineCmd extLabel : String)
    (selfBaselineCmd : Option String) (selfBaselineLabel : String) (baselineOk : Bool) :
    List (String × String) :=
  let swiftFull := perlWrap swiftCmd
  let baselineFull := perlWrap baselineCmd
  let currentName := if selfBaselineCmd.isSome then "swift-cli (current)" else "swift-cli"
  [(currentName ++ ": " ++ name, swiftFull)] ++
  (match selfBaselineCmd with
   | some c => [("swift-cli (" ++ selfBaselineLabel ++ "): " ++ name, perlWrap c)]
   | none => []) ++
  (if baselineOk then [(extLabel ++ ": " ++ name, baselineFull)] else [])

/-! ## Result aggregator (`_speedup_table`)

Hyperfine result files are modelled as `(tool_stem, list of per-candidate
mean durations)` with means as rationals.  A rendered table cell either
carries the value it formats (tool name, a `%.3fs` mean, a `%.2fx` speedup)
or is the literal `"N/A"`. -/

/-- One rendered cell of the speedup summary table. -/
inductive Cell
  | str (s : String)
  | mean (q : ℚ)
  | speedup (q : ℚ)
  | na
  deriving DecidableEq, Repr

/-- The reference columns of one table row: the Python loop
`for i in range(1, n_labels)` with `k` iterations remaining and `i` the
current index.  Hyperfine result files always contain at least one entry
(`results[0]` is accessed unconditionally in the source), so list indexing
is totalized with `getD _ 0`. -/
def refCells (results : List ℚ) : Nat → Nat → List Cell
  | _, 0 => []
  | i, k + 1 =>
    (if i < results.length then
      [Cell.mean (results.getD i 0), Cell.speedup (results.getD i 0 / results.getD 0 0)]
     else [Cell.na, Cell.na]) ++ refCells results (i + 1) k

/-- One data row of `_speedup_table`: the tool name, the primary mean, then
for each reference label position either its mean and speedup or N/A. -/
def speedupRow (nLabels : Nat) (tool : String) (results : List ℚ) : List Cell :=
  Cell.str tool :: Cell.mean (results.getD 0 0) :: refCells results 1 (nLabels - 1)

/-- The data rows of `_speedup_table` over all result files (the two header
lines and trailing blank are fixed text and carry no measured values). -/
def speedup_table (jsonFiles : List (String × List ℚ)) (labels : List String) :
    List (List Cell) :=
  jsonFiles.map (fun f => speedupRow labels.length f.1 f.2)

/-! ## Run controller trace model

`main`'s control flow is embedded as a pure function from a `Config` (the
click options) and an `Env` (the outcomes of every external process
invocation) to an exit code together with an ordered trace of the
side-effecting actions the script performed. -/

/-- The `--mode` option: `mcp`, `cli` (default) or `all`. -/
inductive Mode
  | mcp
  | cli
  | all
  deriving DecidableEq, Repr

/-- Observable side-effecting steps of a run, in execution order. -/
inductive Action
  | resolveRev
  | warnSelfCompare
  | jjUpdateStale
  | jjRebase
  | warnRebaseFailed
  | rmtreeWorkspace
  | jjForget
  | jjWorkspaceAdd
  | swiftBuildCurrent
  | swiftBuildBaseline
  | cleanupBaseline
  | smokeTestSwift
  | smokeTestNode
  | idbConnect
  | cliSmokeTest
  | resetResultsDir
  | warnDrop (name : String)
  | hyperfine (stem : String) (candidates : List (String × String))
  | writeSummary
  deriving DecidableEq, Repr

/-- The click options of `main`. -/
structure Config where
  mode : Mode
  tools : List String
  noFromVersion : Bool
  udidOpt : Option String
  swiftBin : String
  nodeServer : String
  idbPath : String
  fromVersion : String

/-- Outcomes of the external world: each boolean is the success of one
external process invocation (or existence check); the `String → Bool`
fields are per-tool outcomes of the per-operation pre-checks and of the
hyperfine runs. -/
structure Env where
  hyperfineFound : Bool
  mcpFound : Bool
  nodeFound : Bool
  bootedUdid : Option String
  resolveOk : Bool
  changeId : String
  description : String
  currentRevOk : Bool
  currentChangeId : String
  baselineDirExists : Bool
  rebaseOk : Bool
  workspaceAddOk : Bool
  currentBuildOk : Bool
  baselineBuildOk : Bool
  baselineBinExists : Bool
  nodeIndexExists : Bool
  swiftSmokeOk : Bool
  nodeSmokeOk : Bool
  idbExists : Bool
  idbConnectOk : Bool
  cliSwiftSmokeOk : Bool
  cliIdbSmokeOk : Bool
  nodePrecheck : String → Bool
  cliPrecheck : String → Bool
  mcpHyperfineOk : String → Bool
  cliHyperfineOk : String → Bool

/-- Fixed path of the baseline binary inside the baseline workspace. -/
def baselineBinPath : String := "/tmp/ios-sim-mcp-bench-baseline/.build/release/iosef"

/-- The display label built from a resolved change id and description
(lines 127-128 of benchmark.py). -/
def displayLabel (changeId description : String) : String :=
  let shortId := String.mk (changeId.toList.take 8)
  if description ≠ "(no description)" then shortId ++ ": " ++ description else shortId

/-- `prepare_baseline_workspace`: resolve the revision (`resolve_jj_revision`
exits the run on failure), warn on a degenerate self-comparison, rebind an
existing workspace in place when possible, and otherwise recreate it from
scratch.  `Except.error` means `sys.exit(1)`; both sides carry the trace of
actions performed. -/
def prepare_baseline_workspace (env : Env) : Except (List Action) (String × List Action) :=
  if env.resolveOk then
    let label := displayLabel env.changeId env.description
    let warnTrace :=
      if env.currentRevOk ∧ env.currentChangeId = env.changeId then
        [Action.warnSelfCompare]
      else []
    let t0 := Action.resolveRev :: warnTrace
    if env.baselineDirExists then
      let t1 := t0 ++ [Action.jjUpdateStale, Action.jjRebase]
      if env.rebaseOk then Except.ok (label, t1)
      else
        let t2 := t1 ++ [Action.warnRebaseFailed, Action.rmtreeWorkspace,
                         Action.jjForget, Action.jjWorkspaceAdd]
        if env.workspaceAddOk then Except.ok (label, t2) else Except.error t2
    else
      let t2 := t0 ++ [Action.jjForget, Action.jjWorkspaceAdd]
      if env.workspaceAddOk then Except.ok (label, t2) else Except.error t2
  else Except.error [Action.resolveRev]

/-- `check_prerequisites`: hyperfine always required; `mcp` and `node` also
required in mcp/all mode.  `true` = all found (otherwise the script exits). -/
def check_prerequisites (mode : Mode) (env : Env) : Bool :=
  env.hyperfineFound &&
  (if mode = Mode.mcp ∨ mode = Mode.all then env.mcpFound && env.nodeFound else true)

/-- The build phase of `main`: with a baseline, stage the workspace then
build current and baseline concurrently (both builds run; the current
result is checked first), then verify the baseline binary exists, cleaning
up the workspace if it does not; without a baseline, build current only.
Returns the optional `(baseline_bin, baseline_label)`. -/
def buildPhase (cfg : Config) (env : Env) :
    Except (List Action) (Option (String × String) × List Action) :=
  if cfg.noFromVersion then
    if env.currentBuildOk then Except.ok (none, [Action.swiftBuildCurrent])
    else Except.error [Action.swiftBuildCurrent]
  else
    match prepare_baseline_workspace env with
    | Except.error t => Except.error t
    | Except.ok (label, t0) =>
      let t1 := t0 ++ [Action.swiftBuildCurrent, Action.swiftBuildBaseline]
      if ¬ env.currentBuildOk then Except.error t1
      else if ¬ env.baselineBuildOk then Except.error t1
      else if ¬ env.baselineBinExists then Except.error (t1 ++ [Action.cleanupBaseline])
      else Except.ok (some (baselineBinPath, label), t1)

/-- MCP-mode prerequisites in `main`: node server file check, then the fatal
`smoke_test` calls for the Swift and Node MCP servers (each exits the run
on failure or timeout). -/
def mcpPrereqPhase (cfg : Config) (env : Env) : Except (List Action) (List Action) :=
  if cfg.mode = Mode.mcp ∨ cfg.mode = Mode.all then
    if ¬ env.nodeIndexExists then Except.error []
    else if ¬ env.swiftSmokeOk then Except.error [Action.smokeTestSwift]
    else if ¬ env.nodeSmokeOk then Except.error [Action.smokeTestSwift, Action.smokeTestNode]
    else Except.ok [Action.smokeTestSwift, Action.smokeTestNode]
  else Except.ok []

/-- CLI-mode prerequisites in `main`: idb existence check, `idb_connect`
(non-fatal), then the fatal `cli_smoke_test` (Swift CLI and idb, each
exiting the run on failure). -/
def cliPrereqPhase (cfg : Config) (env : Env) : Except (List Action) (List Action) :=
  if cfg.mode = Mode.cli ∨ cfg.mode = Mode.all then
    if ¬ env.idbExists then Except.error []
    else if ¬ env.cliSwiftSmokeOk then Except.error [Action.idbConnect, Action.cliSmokeTest]
    else if ¬ env.cliIdbSmokeOk then Except.error [Action.idbConnect, Action.cliSmokeTest]
    else Except.ok [Action.idbConnect, Action.cliSmokeTest]
  else Except.ok []

/-- One `bench` call: the per-operation node pre-check (warn and drop the
node candidate on failure), then the hyperfine invocation exporting to
`\x7btool\x7d.json` / `\x7btool\x7d.md`. -/
def benchRun (env : Env) (tool : String) (params : Option Params)
    (udid swiftMcpCmd nodeServer : String)
    (baselineCmd : Option String) (baselineLabel : String) : List Action :=
  let nodeOk := env.nodePrecheck tool
  (if nodeOk then [] else [Action.warnDrop tool]) ++
  [Action.hyperfine tool
    (benchCandidates tool params udid swiftMcpCmd nodeServer baselineCmd baselineLabel nodeOk)]

/-- The MCP benchmark loop: each `bench` runs hyperfine with `check=True`,
so a failing hyperfine raises and aborts the run with the trace so far. -/
def runMcpBenches (env : Env) (udid swiftMcpCmd nodeServer : String)
    (baselineCmd : Option String) (baselineLabel : String) :
    List (String × Option Params) → Except (List Action) (List Action)
  | [] => Except.ok []
  | (tool, params) :: rest =>
    let t := benchRun env tool params udid swiftMcpCmd nodeServer baselineCmd baselineLabel
    if env.mcpHyperfineOk tool then
      match runMcpBenches env udid swiftMcpCmd nodeServer baselineCmd baselineLabel rest with
      | Except.ok t2 => Except.ok (t ++ t2)
      | Except.error t2 => Except.error (t ++ t2)
    else Except.error t

/-- One `cli_bench` call: the per-operation external-baseline pre-check
(warn and drop on failure), then the hyperfine invocation exporting to
`cli_\x7bname\x7d.json` / `cli_\x7bname\x7d.md`. -/
def cliBenchRun (env : Env) (name swiftFull baselineFull extLabel : String)
    (selfCmd : Option String) (selfLabel : String) : List Action :=
  let ok := env.cliPrecheck name
  (if ok then [] else [Action.warnDrop name]) ++
  [Action.hyperfine ("cli_" ++ name)
    (cliBenchCandidates name swiftFull baselineFull extLabel selfCmd selfLabel ok)]

/-- The CLI benchmark loop (hyperfine failures abort as in the MCP loop). -/
def runCliBenches (env : Env) (udid swiftBin idbPath : String)
    (baselineBin : Option String) (selfLabel : String) :
    List (String × (String → String → String) × (String → String → String) × String) →
    Except (List Action) (List Action)
  | [] => Except.ok []
  | (name, swiftTpl, baselineTpl, extLabel) :: rest =>
    let swiftFull := swiftTpl swiftBin udid
    let baselineFull := baselineTpl idbPath udid
    let selfCmd := baselineBin.map (fun b => swiftTpl b udid)
    let t := cliBenchRun env name swiftFull baselineFull extLabel selfCmd selfLabel
    if env.cliHyperfineOk name then
      match runCliBenches env udid swiftBin idbPath baselineBin selfLabel rest with
      | Except.ok t2 => Except.ok (t ++ t2)
      | Except.error t2 => Except.error (t ++ t2)
    else Except.error t

/-- The MCP benchmark section of `main`: apply the `--tool` filter (an empty
filtered set is a fatal error), then run the loop. -/
def mcpBenchPhase (cfg : Config) (env : Env) (udid swiftMcpCmd : String)
    (binfo : Option (String × String)) : Except (List Action) (List Action) :=
  if cfg.mode = Mode.mcp ∨ cfg.mode = Mode.all then
    let baselineCmd := binfo.map (fun bi => bi.1 ++ " mcp")
    let blabel := (binfo.map (fun bi => bi.2)).getD ""
    if cfg.tools = [] then
      runMcpBenches env udid swiftMcpCmd cfg.nodeServer baselineCmd blabel TOOLS
    else
      let benchTools := TOOLS.filter (fun tp => cfg.tools.contains tp.1)
      if benchTools.isEmpty then Except.error []
      else runMcpBenches env udid swiftMcpCmd cfg.nodeServer baselineCmd blabel benchTools
  else Except.ok []

/-- The CLI benchmark section of `main`. -/
def cliBenchPhase (cfg : Config) (env : Env) (udid : String)
    (binfo : Option (String × String)) : Except (List Action) (List Action) :=
  if cfg.mode = Mode.cli ∨ cfg.mode = Mode.all then
    let baselineBin := binfo.map (fun bi => bi.1)
    let selfLabel := (binfo.map (fun bi => bi.2)).getD ""
    if cfg.tools = [] then
      runCliBenches env udid cfg.swiftBin cfg.idbPath baselineBin selfLabel CLI_TOOLS
    else
      let cliTools := CLI_TOOLS.filter (fun tp => cfg.tools.contains tp.1)
      if cliTools.isEmpty then Except.error []
      else runCliBenches env udid cfg.swiftBin cfg.idbPath baselineBin selfLabel cliTools
  else Except.ok []

/-- The whole of `main`, as `(exit_code, action trace)`.  Exit code 0 is a
normal completion; every fatal error path exits 1.  The `finally: pass` at
the end of `main` performs no action: the baseline workspace is deliberately
preserved across runs. -/
def mainRun (cfg : Config) (env : Env) : Nat × List Action :=
  if ¬ check_prerequisites cfg.mode env then (1, [])
  else
    match cfg.udidOpt.orElse (fun _ => env.bootedUdid) with
    | none => (1, [])
    | some udid =>
      match buildPhase cfg env with
      | Except.error t1 => (1, t1)
      | Except.ok (binfo, t1) =>
        let swiftMcpCmd := cfg.swiftBin ++ " mcp"
        match mcpPrereqPhase cfg env with
        | Except.error t2 => (1, t1 ++ t2)
        | Except.ok t2 =>
          match cliPrereqPhase cfg env with
          | Except.error t3 => (1, t1 ++ t2 ++ t3)
          | Except.ok t3 =>
            let t4 := [Action.resetResultsDir]
            match mcpBenchPhase cfg env udid swiftMcpCmd binfo with
            | Except.error t5 => (1, t1 ++ t2 ++ t3 ++ t4 ++ t5)
            | Except.ok t5 =>
              match cliBenchPhase cfg env udid binfo with
              | Except.error t6 => (1, t1 ++ t2 ++ t3 ++ t4 ++ t5 ++ t6)
              | Except.ok t6 =>
                (0, t1 ++ t2 ++ t3 ++ t4 ++ t5 ++ t6 ++ [Action.writeSummary])

/-! ## Concrete sample inputs

A realistic UDID and server command, and concrete environments used to
evaluate the model on explicit inputs. -/

/-- A realistic simulator UDID. -/
def sampleUdid : String := "5E9A1C22-B9B0-4E8D-9F62-1A2B3C4D5E6F"

/-- The default Swift MCP server command. -/
def sampleServer : String := ".build/release/iosef mcp"

/-- An environment in which every external invocation succeeds. -/
def envAllOk : Env :=
  { hyperfineFound := true, mcpFound := true, nodeFound := true
    bootedUdid := some sampleUdid
    resolveOk := true, changeId := "pqkwrsnmlxyzuvwt", description := "baseline rev"
    currentRevOk := true, currentChangeId := "qqqqqqqqqqqqqqqq"
    baselineDirExists := true, rebaseOk := true, workspaceAddOk := true
    currentBuildOk := true, baselineBuildOk := true, baselineBinExists := true
    nodeIndexExists := true, swiftSmokeOk := true, nodeSmokeOk := true
    idbExists := true, idbConnectOk := true, cliSwiftSmokeOk := true, cliIdbSmokeOk := true
    nodePrecheck := fun _ => true, cliPrecheck := fun _ => true
    mcpHyperfineOk := fun _ => true, cliHyperfineOk := fun _ => true }

/-- The default configuration (cli mode, no filter, baseline enabled). -/
def cfgCli : Config :=
  { mode := Mode.cli, tools := [], noFromVersion := false
    udidOpt := none, swiftBin := ".build/release/iosef"
    nodeServer := "node ../ios-simulator-mcp/build/index.js"
    idbPath := "../idb", fromVersion := "main" }

/-- The default configuration in mcp mode. -/
def cfgMcp : Config := { cfgCli with mode := Mode.mcp }

/-- An otherwise healthy environment whose per-operation pre-checks fail
for every tool. -/
def envPrecheckFail : Env :=
  { envAllOk with nodePrecheck := fun _ => false, cliPrecheck := fun _ => false }

/-- Whether `prepare_baseline_workspace` succeeds in this environment. -/
def prepOk (env : Env) : Bool :=
  match prepare_baseline_workspace env with
  | Except.ok _ => true
  | Except.error _ => false

/-- Whether an action is a hyperfine (measurement) invocation. -/
def isHyperfine : Action → Bool
  | Action.hyperfine _ _ => true
  | _ => false

/-- The trace of an `Except`-valued phase, whether it exited or returned. -/
def exTrace : Except (List Action) (List Action) → List Action
  | Except.ok t => t
  | Except.error t => t

/-- Whether a phase completed without exiting the process. -/
def exIsOk : Except (List Action) (List Action) → Bool
  | Except.ok _ => true
  | Except.error _ => false

/-- Actions that the baseline workspace staging can perform. -/
def prepActions : List Action :=
  [Action.resolveRev, Action.warnSelfCompare, Action.jjUpdateStale, Action.jjRebase,
   Action.warnRebaseFailed, Action.rmtreeWorkspace, Action.jjForget, Action.jjWorkspaceAdd]

/-- Actions emitted by the benchmark loops: drop warnings and hyperfine
invocations whose candidate list was built by one of the two candidate
builders. -/
def benchActionP : Action → Prop
  | Action.warnDrop _ => True
  | Action.hyperfine _ cands =>
      (∃ tool params udid swiftCmd nodeCmd baselineCmd blabel nodeOk,
        cands = benchCandidates tool params udid swiftCmd nodeCmd baselineCmd blabel nodeOk) ∨
      (∃ name swiftFull baselineFull extLabel selfCmd selfLabel baselineOk,
        cands = cliBenchCandidates name swiftFull baselineFull extLabel selfCmd selfLabel baselineOk)
  | _ => False

/-! ## Lemmas about the aggregator -/

/-- Each iteration of the reference-column loop contributes exactly two
cells, so column positions depend only on the label index. -/
lemma refCells_length (results : List ℚ) : ∀ k i, (refCells results i k).length = 2 * k := by
  intro k
  induction k with
  | zero => intro i; simp [refCells]
  | succ k ih =>
    intro i
    unfold refCells
    split <;> simp [ih] <;> ring

/-- Indexing into the reference columns: the cells at offsets `2*j` and
`2*j + 1` come from label position `i + j`, independently of how many
results are actually present. -/
lemma refCells_getD (results : List ℚ) (d : Cell) :
    ∀ (k i j m : Nat), j < k → m < 2 →
    (refCells results i k).getD (2 * j + m) d =
      (if i + j < results.length then
        [Cell.mean (results.getD (i + j) 0),
         Cell.speedup (results.getD (i + j) 0 / results.getD 0 0)]
       else [Cell.na, Cell.na]).getD m d := by
  intro k
  induction k with
  | zero => intro i j m hj _; exact absurd hj (Nat.not_lt_zero j)
  | succ k ih =>
    intro i j m hj hm
    cases j with
    | zero =>
      unfold refCells
      interval_cases m <;> by_cases h : i < results.length <;>
        simp [h, List.getD_append, List.getD]
    | succ j =>
      unfold refCells
      have harith : 2 * (j + 1) + m = 2 * j + m + 2 := by ring
      have hrec := ih (i + 1) j m (by omega) hm
      have hi : i + 1 + j = i + (j + 1) := by ring
      rw [hi] at hrec
      split <;>
        (rw [harith, List.getD_append_right _ _ _ _ (by simp), ← hrec]
         norm_num)

/-- Indexing into a full table row: for `1 ≤ i < nLabels`, the cells at
positions `2*i` and `2*i + 1` belong to reference label `i`. -/
lemma speedupRow_getD (nLabels : Nat) (tool : String) (results : List ℚ) (d : Cell)
    (i m : Nat) (h1 : 1 ≤ i) (h2 : i < nLabels) (hm : m < 2) :
    (speedupRow nLabels tool results).getD (2 * i + m) d =
      (if i < results.length then
        [Cell.mean (results.getD i 0),
         Cell.speedup (results.getD i 0 / results.getD 0 0)]
       else [Cell.na, Cell.na]).getD m d := by
  unfold speedupRow
  have harith : 2 * i + m = 2 * (i - 1) + m + 1 + 1 := by omega
  rw [harith]
  simp only [List.getD_cons_succ]
  have hrec := refCells_getD results d (nLabels - 1) 1 (i - 1) m (by omega) hm
  have hi : 1 + (i - 1) = i := by omega
  rw [hi] at hrec
  exact hrec

/-! ## Lemmas about run traces -/

/-- Actions of a failed staging are staging actions. -/
lemma prep_error_mem (env : Env) (t : List Action)
    (h : prepare_baseline_workspace env = Except.error t) :
    ∀ a ∈ t, a ∈ prepActions := by
  unfold prepare_baseline_workspace at h
  split_ifs at h <;> injection h with h <;> subst h <;>
    intro a ha <;> simp [prepActions] at ha ⊢ <;> tauto

/-- Actions of a successful staging are staging actions. -/
lemma prep_ok_mem (env : Env) (lab : String) (t : List Action)
    (h : prepare_baseline_workspace env = Except.ok (lab, t)) :
    ∀ a ∈ t, a ∈ prepActions := by
  unfold prepare_baseline_workspace at h
  split_ifs at h <;> injection h with h <;>
    rw [Prod.mk.injEq] at h <;> obtain ⟨-, h⟩ := h <;> subst h <;>
    intro a ha <;> simp [prepActions] at ha ⊢ <;> tauto

/-- A successful build phase performs only staging and build actions. -/
lemma buildPhase_ok_mem (cfg : Config) (env : Env) (binfo : Option (String × String))
    (t : List Action) (h : buildPhase cfg env = Except.ok (binfo, t)) :
    ∀ a ∈ t, a ∈ prepActions ++ [Action.swiftBuildCurrent, Action.swiftBuildBaseline] := by
  unfold buildPhase at h
  rcases hp : prepare_baseline_workspace env with t0 | ⟨lab, t0⟩ <;>
    rw [hp] at h <;> dsimp only at h <;> split_ifs at h <;> simp at h <;>
    obtain ⟨-, h⟩ := h <;> subst h <;> intro a ha
  · simp at ha
    simp [ha]
  · simp at ha
    simp [ha]
  · rcases List.mem_append.mp ha with ha | ha
    · exact List.mem_append_left _ (prep_ok_mem env lab t0 hp a ha)
    · simp at ha
      simp [ha]

/-- A failed build phase performs only staging, build and cleanup actions. -/
lemma buildPhase_error_mem (cfg : Config) (env : Env) (t : List Action)
    (h : buildPhase cfg env = Except.error t) :
    ∀ a ∈ t, a ∈ prepActions ++
      [Action.swiftBuildCurrent, Action.swiftBuildBaseline, Action.cleanupBaseline] := by
  unfold buildPhase at h
  rcases hp : prepare_baseline_workspace env with t0 | ⟨lab, t0⟩ <;>
    rw [hp] at h <;> dsimp only at h <;> split_ifs at h <;> simp at h <;>
    subst h <;> intro a ha
  all_goals
    first
    | have hsub := prep_ok_mem env lab t0 hp a
    | have hsub := prep_error_mem env t0 hp a
  all_goals
    simp only [List.append_assoc, List.mem_append, List.mem_cons,
      List.not_mem_nil, or_false] at ha ⊢
  all_goals tauto

/-- The build phase calls `cleanup_baseline` only when the baseline binary
is missing after a successful build. -/
lemma buildPhase_error_cleanup (cfg : Config) (env : Env) (t : List Action)
    (h : buildPhase cfg env = Except.error t)
    (hc : Action.cleanupBaseline ∈ t) : env.baselineBinExists = false := by
  unfold buildPhase at h
  rcases hp : prepare_baseline_workspace env with t0 | ⟨lab, t0⟩ <;>
    rw [hp] at h <;> dsimp only at h <;> split_ifs at h <;> simp at h <;>
    subst h
  all_goals
    first
    | have hsub := prep_ok_mem env lab t0 hp Action.cleanupBaseline
    | have hsub := prep_error_mem env t0 hp Action.cleanupBaseline
  all_goals
    try simp only [List.append_assoc, List.mem_append, List.mem_cons,
      List.not_mem_nil, or_false] at hc
  all_goals simp_all [prepActions]

/-- A successful build phase never calls `cleanup_baseline`. -/
lemma buildPhase_ok_no_cleanup (cfg : Config) (env : Env) (binfo : Option (String × String))
    (t : List Action) (h : buildPhase cfg env = Except.ok (binfo, t)) :
    Action.cleanupBaseline ∉ t := by
  intro hc
  have := buildPhase_ok_mem cfg env binfo t h _ hc
  simp [prepActions] at this

/-- The MCP prerequisite phase performs only its two smoke tests. -/
lemma mcpPrereqPhase_mem (cfg : Config) (env : Env) :
    ∀ a ∈ exTrace (mcpPrereqPhase cfg env),
      a ∈ [Action.smokeTestSwift, Action.smokeTestNode] := by
  unfold mcpPrereqPhase
  split_ifs <;> intro a ha <;> simp [exTrace] at ha ⊢ <;> tauto

/-- The CLI prerequisite phase performs only idb connect and its smoke test. -/
lemma cliPrereqPhase_mem (cfg : Config) (env : Env) :
    ∀ a ∈ exTrace (cliPrereqPhase cfg env),
      a ∈ [Action.idbConnect, Action.cliSmokeTest] := by
  unfold cliPrereqPhase
  split_ifs <;> intro a ha <;> simp [exTrace] at ha ⊢ <;> tauto

/-- Every action of one `bench` call is a bench action. -/
lemma benchRun_mem (env : Env) (tool : String) (params : Option Params)
    (udid swiftMcpCmd nodeServer : String) (baselineCmd : Option String)
    (baselineLabel : String) :
    ∀ a ∈ benchRun env tool params udid swiftMcpCmd nodeServer baselineCmd baselineLabel,
      benchActionP a := by
  intro a ha
  unfold benchRun at ha
  rcases List.mem_append.mp ha with h | h
  · split_ifs at h
    · simp at h
    · simp at h
      subst h
      trivial
  · simp at h
    subst h
    exact Or.inl ⟨tool, params, udid, swiftMcpCmd, nodeServer, baselineCmd, baselineLabel, _, rfl⟩

/-- Every action of the MCP benchmark loop is a bench action. -/
lemma runMcpBenches_mem (env : Env) (udid swiftMcpCmd nodeServer : String)
    (baselineCmd : Option String) (baselineLabel : String) :
    ∀ ts, ∀ a ∈ exTrace (runMcpBenches env udid swiftMcpCmd nodeServer baselineCmd
      baselineLabel ts), benchActionP a := by
  intro ts
  induction ts with
  | nil => simp [runMcpBenches, exTrace]
  | cons hd tl ih =>
    obtain ⟨tool, params⟩ := hd
    intro a ha
    unfold runMcpBenches at ha
    split_ifs at ha
    · rcases hrec : runMcpBenches env udid swiftMcpCmd nodeServer baselineCmd baselineLabel tl
        with t2 | t2 <;> rw [hrec] at ha <;> simp only [exTrace] at ha <;>
        rcases List.mem_append.mp ha with h | h
      · exact benchRun_mem env tool params udid swiftMcpCmd nodeServer baselineCmd
          baselineLabel a h
      · have := ih a
        rw [hrec] at this
        exact this h
      · exact benchRun_mem env tool params udid swiftMcpCmd nodeServer baselineCmd
          baselineLabel a h
      · have := ih a
        rw [hrec] at this
        exact this h
    · exact benchRun_mem env tool params udid swiftMcpCmd nodeServer baselineCmd
        baselineLabel a (by simpa [exTrace] using ha)

/-- Every action of one `cli_bench` call is a bench action. -/
lemma cliBenchRun_mem (env : Env) (name swiftFull baselineFull extLabel : String)
    (selfCmd : Option String) (selfLabel : String) :
    ∀ a ∈ cliBenchRun env name swiftFull baselineFull extLabel selfCmd selfLabel,
      benchActionP a := by
  intro a ha
  unfold cliBenchRun at ha
  rcases List.mem_append.mp ha with h | h
  · split_ifs at h
    · simp at h
    · simp at h
      subst h
      trivial
  · simp at h
    subst h
    exact Or.inr ⟨name, swiftFull, baselineFull, extLabel, selfCmd, selfLabel, _, rfl⟩

/-- Every action of the CLI benchmark loop is a bench action. -/
lemma runCliBenches_mem (env : Env) (udid swiftBin idbPath : String)
    (baselineBin : Option String) (selfLabel : String) :
    ∀ ts, ∀ a ∈ exTrace (runCliBenches env udid swiftBin idbPath baselineBin selfLabel ts),
      benchActionP a := by
  intro ts
  induction ts with
  | nil => simp [runCliBenches, exTrace]
  | cons hd tl ih =>
    obtain ⟨name, swiftTpl, baselineTpl, extLabel⟩ := hd
    intro a ha
    unfold runCliBenches at ha
    split_ifs at ha
    · rcases hrec : runCliBenches env udid swiftBin idbPath baselineBin selfLabel tl
        with t2 | t2 <;> rw [hrec] at ha <;> simp only [exTrace] at ha <;>
        rcases List.mem_append.mp ha with h | h
      · exact cliBenchRun_mem env name _ _ extLabel _ selfLabel a h
      · have := ih a
        rw [hrec] at this
        exact this h
      · exact cliBenchRun_mem env name _ _ extLabel _ selfLabel a h
      · have := ih a
        rw [hrec] at this
        exact this h
    · exact cliBenchRun_mem env name _ _ extLabel _ selfLabel a (by simpa [exTrace] using ha)

/-- Every action of the MCP benchmark phase is a bench action. -/
lemma mcpBenchPhase_mem (cfg : Config) (env : Env) (udid swiftMcpCmd : String)
    (binfo : Option (String × String)) :
    ∀ a ∈ exTrace (mcpBenchPhase cfg env udid swiftMcpCmd binfo), benchActionP a := by
  unfold mcpBenchPhase
  split_ifs <;> intro a ha
  · exact runMcpBenches_mem env udid swiftMcpCmd cfg.nodeServer _ _ TOOLS a ha
  · by_cases he : (TOOLS.filter (fun tp => cfg.tools.contains tp.1)).isEmpty = true
    · rw [if_pos he] at ha
      simp [exTrace] at ha
    · simp only [he, Bool.false_eq_true, if_false] at ha
      exact runMcpBenches_mem env udid swiftMcpCmd cfg.nodeServer _ _ _ a ha
  · simp [exTrace] at ha

/-- Every action of the CLI benchmark phase is a bench action. -/
lemma cliBenchPhase_mem (cfg : Config) (env : Env) (udid : String)
    (binfo : Option (String × String)) :
    ∀ a ∈ exTrace (cliBenchPhase cfg env udid binfo), benchActionP a := by
  unfold cliBenchPhase
  split_ifs <;> intro a ha
  · exact runCliBenches_mem env udid cfg.swiftBin cfg.idbPath _ _ CLI_TOOLS a ha
  · by_cases he : (CLI_TOOLS.filter (fun tp => cfg.tools.contains tp.1)).isEmpty = true
    · rw [if_pos he] at ha
      simp [exTrace] at ha
    · simp only [he, Bool.false_eq_true, if_false] at ha
      exact runCliBenches_mem env udid cfg.swiftBin cfg.idbPath _ _ _ a ha
  · simp [exTrace] at ha

/-- Staging actions are not cleanup, results-dir, hyperfine or summary
actions. -/
lemma prepActions_facts :
    ∀ a ∈ prepActions, isHyperfine a = false ∧ a ≠ Action.resetResultsDir ∧
      a ≠ Action.writeSummary ∧ a ≠ Action.cleanupBaseline := by
  decide

/-- Bench actions are never cleanup, results-dir reset or summary actions. -/
lemma benchActionP_facts (a : Action) (h : benchActionP a) :
    a ≠ Action.cleanupBaseline ∧ a ≠ Action.resetResultsDir ∧ a ≠ Action.writeSummary := by
  cases a <;> simp_all [benchActionP]

/-- The MCP prerequisite phase never calls cleanup. -/
lemma mcpPrereq_no_cleanup (cfg : Config) (env : Env) :
    Action.cleanupBaseline ∉ exTrace (mcpPrereqPhase cfg env) := by
  intro hc
  have := mcpPrereqPhase_mem cfg env _ hc
  simp at this

/-- The CLI prerequisite phase never calls cleanup. -/
lemma cliPrereq_no_cleanup (cfg : Config) (env : Env) :
    Action.cleanupBaseline ∉ exTrace (cliPrereqPhase cfg env) := by
  intro hc
  have := cliPrereqPhase_mem cfg env _ hc
  simp at this

/-- The MCP benchmark phase never calls cleanup. -/
lemma mcpBench_no_cleanup (cfg : Config) (env : Env) (udid swiftMcpCmd : String)
    (binfo : Option (String × String)) :
    Action.cleanupBaseline ∉ exTrace (mcpBenchPhase cfg env udid swiftMcpCmd binfo) := by
  intro hc
  exact (benchActionP_facts _ (mcpBenchPhase_mem cfg env udid swiftMcpCmd binfo _ hc)).1 rfl

/-- The CLI benchmark phase never calls cleanup. -/
lemma cliBench_no_cleanup (cfg : Config) (env : Env) (udid : String)
    (binfo : Option (String × String)) :
    Action.cleanupBaseline ∉ exTrace (cliBenchPhase cfg env udid binfo) := by
  intro hc
  exact (benchActionP_facts _ (cliBenchPhase_mem cfg env udid binfo _ hc)).1 rfl

/-! ## C1 -/

/-- C1: for every hyperfine result file whose primary mean is non-zero and
every reference position `i` present in it, the speedup value rendered by
the aggregator equals `reference_mean_i / primary_mean`, and this ratio is
positive whenever both means are positive. -/
theorem C1_speedup_is_reference_over_primary
    (labels : List String) (files : List (String × List ℚ))
    (tool : String) (results : List ℚ) (hmem : (tool, results) ∈ files)
    (i : Nat) (h1 : 1 ≤ i) (h2 : i < labels.length) (h3 : i < results.length)
    (_hp : results.getD 0 0 ≠ 0) :
    ∃ row ∈ speedup_table files labels,
      row.getD (2 * i + 1) Cell.na =
        Cell.speedup (results.getD i 0 / results.getD 0 0) ∧
      (0 < results.getD 0 0 → 0 < results.getD i 0 →
        0 < results.getD i 0 / results.getD 0 0) := by
  refine ⟨speedupRow labels.length tool results,
    List.mem_map_of_mem (fun f => speedupRow labels.length f.1 f.2) hmem, ?_, ?_⟩
  · rw [speedupRow_getD labels.length tool results Cell.na i 1 h1 h2 (by omega)]
    simp [h3, List.getD]
  · intro hp0 hpi
    exact div_pos hpi hp0

/-- C1 witness: the spec's own scenario for operation `tap`
(primary 0.010s, reference 0.030s, speedup 3.00x). -/
theorem C1_speedup_witness :
    ∃ row ∈ speedup_table [("tap", [(1 : ℚ)/100, 3/100])] ["Swift", "Node"],
      row.getD (2 * 1 + 1) Cell.na =
        Cell.speedup ([(1 : ℚ)/100, 3/100].getD 1 0 / [(1 : ℚ)/100, 3/100].getD 0 0) ∧
      (0 < [(1 : ℚ)/100, 3/100].getD 0 0 → 0 < [(1 : ℚ)/100, 3/100].getD 1 0 →
        0 < [(1 : ℚ)/100, 3/100].getD 1 0 / [(1 : ℚ)/100, 3/100].getD 0 0) :=
  C1_speedup_is_reference_over_primary ["Swift", "Node"] [("tap", [(1 : ℚ)/100, 3/100])]
    "tap" [(1 : ℚ)/100, 3/100] (by simp) 1 (by omega) (by simp) (by simp)
    (by norm_num [List.getD])

/-! ## C7 -/

/-- C7: for every result file with fewer candidate entries than the label
sequence, the aggregator renders the absent reference positions as N/A,
while the primary column (position 1) and every present reference column
(positions `2*i`, `2*i+1`) keep their positions unshifted, and the row has
full width. -/
theorem C7_absent_positions_render_na
    (labels : List String) (files : List (String × List ℚ))
    (tool : String) (results : List ℚ) (hmem : (tool, results) ∈ files)
    (_hfew : results.length < labels.length) :
    ∃ row ∈ speedup_table files labels,
      row.length = 2 + 2 * (labels.length - 1) ∧
      row.getD 1 Cell.na = Cell.mean (results.getD 0 0) ∧
      ∀ i, 1 ≤ i → i < labels.length →
        ((i < results.length →
            row.getD (2 * i) Cell.na = Cell.mean (results.getD i 0) ∧
            row.getD (2 * i + 1) Cell.na =
              Cell.speedup (results.getD i 0 / results.getD 0 0)) ∧
         (results.length ≤ i →
            row.getD (2 * i) Cell.na = Cell.na ∧
            row.getD (2 * i + 1) Cell.na = Cell.na)) := by
  refine ⟨speedupRow labels.length tool results,
    List.mem_map_of_mem (fun f => speedupRow labels.length f.1 f.2) hmem, ?_, ?_, ?_⟩
  · simp [speedupRow, refCells_length]
    omega
  · simp [speedupRow, List.getD]
  · intro i h1 h2
    constructor
    · intro hlt
      constructor
      · rw [show 2 * i = 2 * i + 0 by omega,
            speedupRow_getD labels.length tool results Cell.na i 0 h1 h2 (by omega)]
        simp [hlt, List.getD]
      · rw [speedupRow_getD labels.length tool results Cell.na i 1 h1 h2 (by omega)]
        simp [hlt, List.getD]
    · intro hge
      constructor
      · rw [show 2 * i = 2 * i + 0 by omega,
            speedupRow_getD labels.length tool results Cell.na i 0 h1 h2 (by omega)]
        simp [Nat.not_lt.mpr hge, List.getD]
      · rw [speedupRow_getD labels.length tool results Cell.na i 1 h1 h2 (by omega)]
        simp [Nat.not_lt.mpr hge, List.getD]

/-- C7 witness: a three-label run (current, self-baseline, node) whose
result file for `tap` has only two entries: position 2 renders as N/A while
positions 0 and 1 are unshifted. -/
theorem C7_absent_witness :
    ∃ row ∈ speedup_table [("tap", [(1 : ℚ)/100, 2/100])]
        ["Swift (current)", "Swift (pqkwrsnm: baseline rev)", "Node"],
      row.length = 2 + 2 * (3 - 1) ∧
      row.getD 1 Cell.na = Cell.mean ([(1 : ℚ)/100, 2/100].getD 0 0) ∧
      ∀ i, 1 ≤ i → i < 3 →
        ((i < 2 →
            row.getD (2 * i) Cell.na = Cell.mean ([(1 : ℚ)/100, 2/100].getD i 0) ∧
            row.getD (2 * i + 1) Cell.na =
              Cell.speedup ([(1 : ℚ)/100, 2/100].getD i 0 / [(1 : ℚ)/100, 2/100].getD 0 0)) ∧
         (2 ≤ i →
            row.getD (2 * i) Cell.na = Cell.na ∧
            row.getD (2 * i + 1) Cell.na = Cell.na)) :=
  C7_absent_positions_render_na
    ["Swift (current)", "Swift (pqkwrsnm: baseline rev)", "Node"]
    [("tap", [(1 : ℚ)/100, 2/100])] "tap" [(1 : ℚ)/100, 2/100] (by simp) (by simp)

/-! ## C10 -/

/-- C10: `cleanup_baseline` is never invoked at run end — in any run whose
trace contains a cleanup action, that cleanup came from the
missing-baseline-binary error path (so the baseline binary was absent after
a successful build and the run aborted with exit status 1); every other
run, normal or aborted, leaves the baseline workspace untouched. -/
theorem C10_cleanup_only_on_missing_artifact (cfg : Config) (env : Env) :
    Action.cleanupBaseline ∈ (mainRun cfg env).2 →
      env.baselineBinExists = false ∧ (mainRun cfg env).1 = 1 := by
  intro hmem
  unfold mainRun at hmem ⊢
  by_cases hpre : check_prerequisites cfg.mode env
  case neg => simp [hpre] at hmem
  rcases hu : cfg.udidOpt.orElse (fun _ => env.bootedUdid) with _ | udid
  · simp [hpre, hu] at hmem
  rcases hb : buildPhase cfg env with t1 | ⟨binfo, t1⟩
  · simp only [hpre, hu, hb, not_true_eq_false, if_false] at hmem ⊢
    exact ⟨buildPhase_error_cleanup cfg env t1 hb hmem, trivial⟩
  have hnc1 := buildPhase_ok_no_cleanup cfg env binfo t1 hb
  rcases h2 : mcpPrereqPhase cfg env with t2 | t2 <;>
    [skip; rcases h3 : cliPrereqPhase cfg env with t3 | t3] <;>
    [skip;
     skip;
     rcases h5 : mcpBenchPhase cfg env udid (cfg.swiftBin ++ " mcp") binfo with t5 | t5] <;>
    [skip;
     skip;
     skip;
     rcases h6 : cliBenchPhase cfg env udid binfo with t6 | t6] <;>
    exfalso <;>
    simp only [hpre, hu, hb, h2, not_true_eq_false, if_false] at hmem <;>
    try simp only [h3] at hmem
  all_goals try simp only [h5] at hmem
  all_goals try simp only [h6] at hmem
  all_goals
    simp only [List.append_assoc, List.mem_append, List.mem_cons,
      List.not_mem_nil, or_false, List.mem_singleton] at hmem
  · rcases hmem with hmem | hmem
    · exact hnc1 hmem
    · exact mcpPrereq_no_cleanup cfg env (by rw [h2]; exact hmem)
  · rcases hmem with hmem | hmem | hmem
    · exact hnc1 hmem
    · exact mcpPrereq_no_cleanup cfg env (by rw [h2]; exact hmem)
    · exact cliPrereq_no_cleanup cfg env (by rw [h3]; exact hmem)
  · rcases hmem with hmem | hmem | hmem | hmem | hmem
    · exact hnc1 hmem
    · exact mcpPrereq_no_cleanup cfg env (by rw [h2]; exact hmem)
    · exact cliPrereq_no_cleanup cfg env (by rw [h3]; exact hmem)
    · exact Action.noConfusion hmem
    · exact mcpBench_no_cleanup cfg env udid (cfg.swiftBin ++ " mcp") binfo
        (by rw [h5]; exact hmem)
  · rcases hmem with hmem | hmem | hmem | hmem | hmem | hmem
    · exact hnc1 hmem
    · exact mcpPrereq_no_cleanup cfg env (by rw [h2]; exact hmem)
    · exact cliPrereq_no_cleanup cfg env (by rw [h3]; exact hmem)
    · exact Action.noConfusion hmem
    · exact mcpBench_no_cleanup cfg env udid (cfg.swiftBin ++ " mcp") binfo
        (by rw [h5]; exact hmem)
    · exact cliBench_no_cleanup cfg env udid binfo (by rw [h6]; exact hmem)
  · rcases hmem with hmem | hmem | hmem | hmem | hmem | hmem | hmem
    · exact hnc1 hmem
    · exact mcpPrereq_no_cleanup cfg env (by rw [h2]; exact hmem)
    · exact cliPrereq_no_cleanup cfg env (by rw [h3]; exact hmem)
    · exact Action.noConfusion hmem
    · exact mcpBench_no_cleanup cfg env udid (cfg.swiftBin ++ " mcp") binfo
        (by rw [h5]; exact hmem)
    · exact cliBench_no_cleanup cfg env udid binfo (by rw [h6]; exact hmem)
    · exact Action.noConfusion hmem

/-- C10 witness: a run on the missing-baseline-binary path (both builds
succeed but the baseline binary is absent), where the cleanup action does
occur: the theorem's hypothesis is satisfied and it yields the abort. -/
theorem C10_cleanup_witness :
    { envAllOk with baselineBinExists := false }.baselineBinExists = false ∧
    (mainRun cfgCli { envAllOk with baselineBinExists := false }).1 = 1 :=
  C10_cleanup_only_on_missing_artifact cfgCli { envAllOk with baselineBinExists := false }
    (by decide)

/-! ## C5 -/

/-- C5 counterexample: with the baseline staged and reused and the baseline
build failing, the run exits with status 1 and its trace contains no
cleanup action — the workspace is not cleaned up before exit, contradicting
the claim that cleanup runs before the process exits. -/
theorem C5_counterexample_no_cleanup_on_build_failure :
    (mainRun cfgCli { envAllOk with baselineBuildOk := false }).1 = 1 ∧
    Action.cleanupBaseline ∉ (mainRun cfgCli { envAllOk with baselineBuildOk := false }).2 := by
  constructor
  · decide
  · decide

/-- C5 (amended): whenever the baseline build fails after the baseline
workspace has been staged, the process exits with status 1 and the
workspace is deliberately preserved: no cleanup action appears in the
trace.  Cleanup runs only on the missing-baseline-binary path. -/
theorem C5_amended_build_failure_preserves_workspace (cfg : Config) (env : Env)
    (hnf : cfg.noFromVersion = false) (hstage : prepOk env = true)
    (hcur : env.currentBuildOk = true) (hbase : env.baselineBuildOk = false) :
    (mainRun cfg env).1 = 1 ∧ Action.cleanupBaseline ∉ (mainRun cfg env).2 := by
  have hb : ∃ t1, buildPhase cfg env = Except.error t1 ∧
      Action.cleanupBaseline ∉ t1 := by
    unfold prepOk at hstage
    rcases hp : prepare_baseline_workspace env with t0 | ⟨lab, t0⟩
    · rw [hp] at hstage
      simp at hstage
    · refine ⟨t0 ++ [Action.swiftBuildCurrent, Action.swiftBuildBaseline], ?_, ?_⟩
      · unfold buildPhase
        rw [hp]
        simp [hnf, hcur, hbase]
      · intro hc
        rcases List.mem_append.mp hc with hc | hc
        · have := prep_ok_mem env lab t0 hp _ hc
          simp [prepActions] at this
        · simp at hc
  obtain ⟨t1, hb, hnc⟩ := hb
  unfold mainRun
  by_cases hpre : check_prerequisites cfg.mode env
  case neg => simp [hpre]
  rcases hu : cfg.udidOpt.orElse (fun _ => env.bootedUdid) with _ | udid
  · simp [hpre, hu]
  simp only [hpre, hu, hb, not_true_eq_false, if_false]
  exact ⟨trivial, hnc⟩

/-- C5 witness: the amended theorem applied to the concrete failing-build
environment. -/
theorem C5_amended_witness :
    (mainRun cfgMcp { envAllOk with baselineBuildOk := false }).1 = 1 ∧
    Action.cleanupBaseline ∉ (mainRun cfgMcp { envAllOk with baselineBuildOk := false }).2 :=
  C5_amended_build_failure_preserves_workspace cfgMcp
    { envAllOk with baselineBuildOk := false } (by decide) (by decide) (by decide) (by decide)

/-! ## C8 -/

/-- C8: if baseline workspace creation fails, the run exits with status 1
before any measurement artifact is written: the results directory is never
reset or created, no hyperfine invocation happens, and no summary is
written. -/
theorem C8_workspace_failure_before_artifacts (cfg : Config) (env : Env)
    (hnf : cfg.noFromVersion = false) (hres : env.resolveOk = true)
    (hadd : env.workspaceAddOk = false)
    (hdir : env.baselineDirExists = false ∨ env.rebaseOk = false) :
    (mainRun cfg env).1 = 1 ∧
    Action.resetResultsDir ∉ (mainRun cfg env).2 ∧
    (∀ a ∈ (mainRun cfg env).2, isHyperfine a = false) ∧
    Action.writeSummary ∉ (mainRun cfg env).2 := by
  have hperr : ∃ t, prepare_baseline_workspace env = Except.error t ∧
      ∀ a ∈ t, a ∈ prepActions := by
    rcases hp : prepare_baseline_workspace env with t | ⟨lab, t⟩
    · exact ⟨t, rfl, prep_error_mem env t hp⟩
    · exfalso
      unfold prepare_baseline_workspace at hp
      split_ifs at hp <;> simp_all
  obtain ⟨t, hp, hsub⟩ := hperr
  have hb : buildPhase cfg env = Except.error t := by
    unfold buildPhase
    rw [hp]
    simp [hnf]
  unfold mainRun
  by_cases hpre : check_prerequisites cfg.mode env
  case neg => simp [hpre]
  rcases hu : cfg.udidOpt.orElse (fun _ => env.bootedUdid) with _ | udid
  · simp [hpre, hu]
  simp only [hpre, hu, hb, not_true_eq_false, if_false]
  refine ⟨trivial, ?_, ?_, ?_⟩
  · intro hc
    exact (prepActions_facts _ (hsub _ hc)).2.1 rfl
  · intro a ha
    exact (prepActions_facts _ (hsub _ ha)).1
  · intro hc
    exact (prepActions_facts _ (hsub _ hc)).2.2.1 rfl

/-- C8 witness: workspace creation fails concretely (existing workspace
whose rebind fails, and `jj workspace add` fails): exit 1 with no results
directory reset, no hyperfine run, no summary. -/
theorem C8_workspace_failure_witness :
    (mainRun cfgCli { envAllOk with rebaseOk := false, workspaceAddOk := false }).1 = 1 ∧
    Action.resetResultsDir ∉
      (mainRun cfgCli { envAllOk with rebaseOk := false, workspaceAddOk := false }).2 ∧
    (∀ a ∈ (mainRun cfgCli { envAllOk with rebaseOk := false, workspaceAddOk := false }).2,
      isHyperfine a = false) ∧
    Action.writeSummary ∉
      (mainRun cfgCli { envAllOk with rebaseOk := false, workspaceAddOk := false }).2 :=
  C8_workspace_failure_before_artifacts cfgCli
    { envAllOk with rebaseOk := false, workspaceAddOk := false }
    (by decide) (by decide) (by decide) (Or.inr (by decide))

/-! ## C9 -/

/-- C9 counterexample: with a `--tool` filter matching no operation
(`--tool bogus`, mcp mode, everything else healthy), the run does exit with
status 1 but only after invoking the build: `swift build` for the current
tree is in the trace, contradicting the claim that the error is reported
before any build is invoked. -/
theorem C9_counterexample_filter_checked_after_build :
    (mainRun { cfgMcp with tools := ["bogus"] } envAllOk).1 = 1 ∧
    Action.swiftBuildCurrent ∈ (mainRun { cfgMcp with tools := ["bogus"] } envAllOk).2 := by
  constructor
  · decide
  · decide

/-- C9 (amended): when the operation-name filter matches no operation of
either kind, the run exits with status 1 before any measurement (no
hyperfine invocation appears in the trace) — but only after the builds,
smoke tests and results-directory reset have already run. -/
theorem C9_amended_empty_filter_exits_before_measurement (cfg : Config) (env : Env)
    (hne : cfg.tools ≠ [])
    (hmcp : TOOLS.filter (fun tp => cfg.tools.contains tp.1) = [])
    (hcli : CLI_TOOLS.filter (fun tp => cfg.tools.contains tp.1) = []) :
    (mainRun cfg env).1 = 1 ∧
    ∀ a ∈ (mainRun cfg env).2, isHyperfine a = false := by
  have hmono1 : ∀ x ∈ prepActions ++
      [Action.swiftBuildCurrent, Action.swiftBuildBaseline, Action.cleanupBaseline],
      isHyperfine x = false := by decide
  have hmono2 : ∀ x ∈ prepActions ++ [Action.swiftBuildCurrent, Action.swiftBuildBaseline],
      isHyperfine x = false := by decide
  unfold mainRun
  by_cases hpre : check_prerequisites cfg.mode env
  case neg => simp [hpre]
  rcases hu : cfg.udidOpt.orElse (fun _ => env.bootedUdid) with _ | udid
  · simp [hpre, hu]
  rcases hb : buildPhase cfg env with t1 | ⟨binfo, t1⟩
  · simp only [hpre, hu, hb, not_true_eq_false, if_false]
    exact ⟨trivial, fun a ha => hmono1 a (buildPhase_error_mem cfg env t1 hb a ha)⟩
  have ht1 : ∀ a ∈ t1, isHyperfine a = false :=
    fun a ha => hmono2 a (buildPhase_ok_mem cfg env binfo t1 hb a ha)
  have hprereqm : ∀ t2, mcpPrereqPhase cfg env = Except.error t2 ∨
      mcpPrereqPhase cfg env = Except.ok t2 → ∀ a ∈ t2, isHyperfine a = false := by
    intro t2 h a ha
    have : a ∈ exTrace (mcpPrereqPhase cfg env) := by
      rcases h with h | h <;> rw [h] <;> exact ha
    have := mcpPrereqPhase_mem cfg env a this
    simp at this
    rcases this with h | h <;> simp [h, isHyperfine]
  rcases h2 : mcpPrereqPhase cfg env with t2 | t2
  · have ht2 : ∀ a ∈ t2, isHyperfine a = false := hprereqm t2 (Or.inl h2)
    simp only [hpre, hu, hb, h2, not_true_eq_false, if_false]
    refine ⟨trivial, ?_⟩
    intro a ha
    rcases List.mem_append.mp ha with ha | ha
    · exact ht1 a ha
    · exact ht2 a ha
  have ht2 : ∀ a ∈ t2, isHyperfine a = false := hprereqm t2 (Or.inr h2)
  have hprereqc : ∀ t3, cliPrereqPhase cfg env = Except.error t3 ∨
      cliPrereqPhase cfg env = Except.ok t3 → ∀ a ∈ t3, isHyperfine a = false := by
    intro t3 h a ha
    have : a ∈ exTrace (cliPrereqPhase cfg env) := by
      rcases h with h | h <;> rw [h] <;> exact ha
    have := cliPrereqPhase_mem cfg env a this
    simp at this
    rcases this with h | h <;> simp [h, isHyperfine]
  rcases h3 : cliPrereqPhase cfg env with t3 | t3
  · have ht3 : ∀ a ∈ t3, isHyperfine a = false := hprereqc t3 (Or.inl h3)
    simp only [hpre, hu, hb, h2, h3, not_true_eq_false, if_false]
    refine ⟨trivial, ?_⟩
    intro a ha
    simp only [List.mem_append] at ha
    rcases ha with (ha | ha) | ha
    · exact ht1 a ha
    · exact ht2 a ha
    · exact ht3 a ha
  have ht3 : ∀ a ∈ t3, isHyperfine a = false := hprereqc t3 (Or.inr h3)
  have hrest : ∀ a, (a ∈ t1 ∨ a ∈ t2 ∨ a ∈ t3 ∨ a = Action.resetResultsDir) →
      isHyperfine a = false := by
    intro a ha
    rcases ha with ha | ha | ha | ha
    · exact ht1 a ha
    · exact ht2 a ha
    · exact ht3 a ha
    · simp [ha, isHyperfine]
  have hemcp : (TOOLS.filter (fun tp => cfg.tools.contains tp.1)).isEmpty = true := by
    rw [hmcp]
    rfl
  have hecli : (CLI_TOOLS.filter (fun tp => cfg.tools.contains tp.1)).isEmpty = true := by
    rw [hcli]
    rfl
  rcases hmode : cfg.mode with _ | _ | _ <;> rw [hmode] at hpre
  · -- mcp mode: the MCP filter is empty, fatal before any hyperfine run
    have h5 : mcpBenchPhase cfg env udid (cfg.swiftBin ++ " mcp") binfo =
        Except.error [] := by
      unfold mcpBenchPhase
      rw [if_pos (Or.inl hmode), if_neg hne, if_pos hemcp]
    simp only [hpre, hu, hb, h2, h3, h5, not_true_eq_false, if_false]
    refine ⟨trivial, ?_⟩
    intro a ha
    simp only [List.append_assoc, List.mem_append, List.mem_cons,
      List.not_mem_nil, or_false, List.append_nil] at ha
    rcases ha with ha | ha | ha | ha
    · exact ht1 a ha
    · exact ht2 a ha
    · exact ht3 a ha
    · simp [ha, isHyperfine]
  · -- cli mode: the MCP phase is skipped, the CLI filter is empty and fatal
    have h5 : mcpBenchPhase cfg env udid (cfg.swiftBin ++ " mcp") binfo =
        Except.ok [] := by
      unfold mcpBenchPhase
      rw [if_neg (by simp [hmode])]
    have h6 : cliBenchPhase cfg env udid binfo = Except.error [] := by
      unfold cliBenchPhase
      rw [if_pos (Or.inl hmode), if_neg hne, if_pos hecli]
    simp only [hpre, hu, hb, h2, h3, h5, h6, not_true_eq_false, if_false]
    refine ⟨trivial, ?_⟩
    intro a ha
    simp only [List.append_assoc, List.mem_append, List.mem_cons,
      List.not_mem_nil, or_false, List.append_nil] at ha
    rcases ha with ha | ha | ha | ha
    · exact ht1 a ha
    · exact ht2 a ha
    · exact ht3 a ha
    · simp [ha, isHyperfine]
  · -- all mode: the MCP filter check fires first
    have h5 : mcpBenchPhase cfg env udid (cfg.swiftBin ++ " mcp") binfo =
        Except.error [] := by
      unfold mcpBenchPhase
      rw [if_pos (Or.inr hmode), if_neg hne, if_pos hemcp]
    simp only [hpre, hu, hb, h2, h3, h5, not_true_eq_false, if_false]
    refine ⟨trivial, ?_⟩
    intro a ha
    simp only [List.append_assoc, List.mem_append, List.mem_cons,
      List.not_mem_nil, or_false, List.append_nil] at ha
    rcases ha with ha | ha | ha | ha
    · exact ht1 a ha
    · exact ht2 a ha
    · exact ht3 a ha
    · simp [ha, isHyperfine]

/-- C9 witness: the amended theorem at the concrete filter `["bogus"]` in
cli mode. -/
theorem C9_amended_witness :
    (mainRun { cfgCli with tools := ["bogus"] } envAllOk).1 = 1 ∧
    ∀ a ∈ (mainRun { cfgCli with tools := ["bogus"] } envAllOk).2,
      isHyperfine a = false :=
  C9_amended_empty_filter_exits_before_measurement { cfgCli with tools := ["bogus"] }
    envAllOk (by decide) (by decide) (by simp [CLI_TOOLS])

/-! ## C3 -/

/-- C3 counterexample: the Node MCP server is a non-primary candidate, yet
when its up-front smoke test fails (everything else healthy, mcp mode) the
run aborts with exit status 1 before any hyperfine measurement — the
candidate is not dropped and the run does not continue, contradicting the
claim that every non-primary smoke-test failure is non-fatal. -/
theorem C3_counterexample_node_smoke_failure_fatal :
    (mainRun cfgMcp { envAllOk with nodeSmokeOk := false }).1 = 1 ∧
    ∀ a ∈ (mainRun cfgMcp { envAllOk with nodeSmokeOk := false }).2,
      isHyperfine a = false := by
  constructor
  · decide
  · decide

/-- C3 (amended): the per-operation pre-check of the external reference
candidate (node in MCP benches, idb/simctl in CLI benches) is
candidate-scoped and non-fatal: on failure exactly that candidate is
dropped from the hyperfine invocation, a warning is emitted, the operation
is still measured, and whether the loop aborts depends only on the
hyperfine outcomes — never on the pre-check.  (The up-front smoke tests in
`main` — Swift and Node MCP servers, Swift CLI and idb — remain fatal for
any candidate, including non-primary ones.) -/
theorem C3_amended_precheck_drop_nonfatal
    (env : Env) (tool : String) (params : Option Params)
    (udid swiftMcpCmd nodeServer : String) (baselineCmd : Option String)
    (baselineLabel : String) (rest : List (String × Option Params))
    (name swiftFull baselineFull extLabel : String) (selfCmd : Option String)
    (selfLabel : String)
    (hnode : env.nodePrecheck tool = false) (hcliPre : env.cliPrecheck name = false) :
    benchRun env tool params udid swiftMcpCmd nodeServer baselineCmd baselineLabel =
      [Action.warnDrop tool,
       Action.hyperfine tool
         (benchCandidates tool params udid swiftMcpCmd nodeServer baselineCmd
           baselineLabel false)] ∧
    benchCandidates tool params udid swiftMcpCmd nodeServer baselineCmd baselineLabel false ++
        [("node: " ++ tool, mcp_call_cmd tool params udid nodeServer)] =
      benchCandidates tool params udid swiftMcpCmd nodeServer baselineCmd baselineLabel true ∧
    exIsOk (runMcpBenches env udid swiftMcpCmd nodeServer baselineCmd baselineLabel
        ((tool, params) :: rest)) =
      (env.mcpHyperfineOk tool &&
        exIsOk (runMcpBenches env udid swiftMcpCmd nodeServer baselineCmd baselineLabel
          rest)) ∧
    cliBenchRun env name swiftFull baselineFull extLabel selfCmd selfLabel =
      [Action.warnDrop name,
       Action.hyperfine ("cli_" ++ name)
         (cliBenchCandidates name swiftFull baselineFull extLabel selfCmd selfLabel false)] ∧
    cliBenchCandidates name swiftFull baselineFull extLabel selfCmd selfLabel false ++
        [(extLabel ++ ": " ++ name, perlWrap baselineFull)] =
      cliBenchCandidates name swiftFull baselineFull extLabel selfCmd selfLabel true := by
  refine ⟨?_, ?_, ?_, ?_, ?_⟩
  · unfold benchRun
    simp [hnode]
  · unfold benchCandidates
    simp
  · simp only [runMcpBenches]
    by_cases h : env.mcpHyperfineOk tool <;>
      rcases hr : runMcpBenches env udid swiftMcpCmd nodeServer baselineCmd baselineLabel rest
        with t2 | t2 <;> simp [h, hr, exIsOk]
  · unfold cliBenchRun
    simp [hcliPre]
  · unfold cliBenchCandidates
    simp

/-- C3 witness: the amended theorem at a concrete environment whose
pre-checks fail, for the `view` MCP tool and the `screenshot` CLI tool. -/
theorem C3_amended_witness :
    benchRun envPrecheckFail
        "view" none sampleUdid ".build/release/iosef mcp" "node server.js" none "" =
      [Action.warnDrop "view",
       Action.hyperfine "view"
         (benchCandidates "view" none sampleUdid ".build/release/iosef mcp" "node server.js"
           none "" false)] ∧
    benchCandidates "view" none sampleUdid ".build/release/iosef mcp" "node server.js"
        none "" false ++
        [("node: " ++ "view", mcp_call_cmd "view" none sampleUdid "node server.js")] =
      benchCandidates "view" none sampleUdid ".build/release/iosef mcp" "node server.js"
        none "" true ∧
    exIsOk (runMcpBenches envPrecheckFail
        sampleUdid ".build/release/iosef mcp" "node server.js" none "" [("view", none)]) =
      (envPrecheckFail.mcpHyperfineOk "view" &&
        exIsOk (runMcpBenches envPrecheckFail
          sampleUdid ".build/release/iosef mcp" "node server.js" none "" [])) ∧
    cliBenchRun envPrecheckFail
        "screenshot" "sw view" "xcrun simctl" "simctl" none "" =
      [Action.warnDrop "screenshot",
       Action.hyperfine ("cli_" ++ "screenshot")
         (cliBenchCandidates "screenshot" "sw view" "xcrun simctl" "simctl" none "" false)] ∧
    cliBenchCandidates "screenshot" "sw view" "xcrun simctl" "simctl" none "" false ++
        [("simctl" ++ ": " ++ "screenshot", perlWrap "xcrun simctl")] =
      cliBenchCandidates "screenshot" "sw view" "xcrun simctl" "simctl" none "" true :=
  C3_amended_precheck_drop_nonfatal envPrecheckFail
    "view" none sampleUdid ".build/release/iosef mcp" "node server.js" none "" []
    "screenshot" "sw view" "xcrun simctl" "simctl" none "" (by decide) (by decide)

/-! ## C6 -/

/-- Directory removal during staging happens only when a workspace
directory existed and its in-place rebase failed. -/
lemma rmtree_only_on_rebase_failure (env : Env) (lab : String) (t : List Action)
    (h : prepare_baseline_workspace env = Except.ok (lab, t) ∨
         prepare_baseline_workspace env = Except.error t)
    (hmem : Action.rmtreeWorkspace ∈ t) :
    env.baselineDirExists = true ∧ env.rebaseOk = false := by
  rcases h with h | h <;> unfold prepare_baseline_workspace at h <;>
    split_ifs at h <;> simp at h <;>
    first
    | (obtain ⟨-, h⟩ := h
       subst h
       simp_all)
    | (subst h
       simp_all)

/-- C6: when the baseline workspace directory already exists and the
in-place rebase succeeds, `prepare_baseline_workspace` returns successfully
without ever removing the directory, forgetting the registration or
creating a fresh workspace; and in any environment, directory removal
happens only on the rebase-failure path. -/
theorem C6_rebind_success_preserves_workspace (env : Env)
    (hres : env.resolveOk = true) (hdir : env.baselineDirExists = true)
    (hreb : env.rebaseOk = true) :
    (∃ t, prepare_baseline_workspace env =
        Except.ok (displayLabel env.changeId env.description, t) ∧
      Action.rmtreeWorkspace ∉ t ∧ Action.jjWorkspaceAdd ∉ t ∧ Action.jjForget ∉ t) ∧
    (∀ env' : Env, ∀ lab t,
      (prepare_baseline_workspace env' = Except.ok (lab, t) ∨
       prepare_baseline_workspace env' = Except.error t) →
      Action.rmtreeWorkspace ∈ t →
      env'.baselineDirExists = true ∧ env'.rebaseOk = false) := by
  constructor
  · unfold prepare_baseline_workspace
    rw [if_pos hres]
    dsimp only
    rw [if_pos hdir, if_pos hreb]
    refine ⟨_, rfl, ?_, ?_, ?_⟩ <;> split_ifs <;> simp
  · exact fun env' lab t h hmem => rmtree_only_on_rebase_failure env' lab t h hmem

/-- C6 witness: the theorem at the all-healthy environment, in which the
workspace exists and the rebase succeeds. -/
theorem C6_rebind_witness :
    (∃ t, prepare_baseline_workspace envAllOk =
        Except.ok (displayLabel envAllOk.changeId envAllOk.description, t) ∧
      Action.rmtreeWorkspace ∉ t ∧ Action.jjWorkspaceAdd ∉ t ∧ Action.jjForget ∉ t) ∧
    (∀ env' : Env, ∀ lab t,
      (prepare_baseline_workspace env' = Except.ok (lab, t) ∨
       prepare_baseline_workspace env' = Except.error t) →
      Action.rmtreeWorkspace ∈ t →
      env'.baselineDirExists = true ∧ env'.rebaseOk = false) :=
  C6_rebind_success_preserves_workspace envAllOk (by decide) (by decide) (by decide)

/-! ## C2 -/

/-- Every hyperfine invocation appearing in a run trace was assembled by
one of the two candidate builders. -/
lemma mainRun_hyperfine_bench (cfg : Config) (env : Env) (stem : String)
    (cands : List (String × String))
    (hmem : Action.hyperfine stem cands ∈ (mainRun cfg env).2) :
    benchActionP (Action.hyperfine stem cands) := by
  unfold mainRun at hmem
  by_cases hpre : check_prerequisites cfg.mode env
  case neg => simp [hpre] at hmem
  rcases hu : cfg.udidOpt.orElse (fun _ => env.bootedUdid) with _ | udid
  · simp [hpre, hu] at hmem
  rcases hb : buildPhase cfg env with t1 | ⟨binfo, t1⟩
  · simp only [hpre, hu, hb, not_true_eq_false, if_false] at hmem
    have := buildPhase_error_mem cfg env t1 hb _ hmem
    simp [prepActions] at this
  have hnh1 : Action.hyperfine stem cands ∉ t1 := by
    intro hc
    have := buildPhase_ok_mem cfg env binfo t1 hb _ hc
    simp [prepActions] at this
  have hnh2 : Action.hyperfine stem cands ∈ exTrace (mcpPrereqPhase cfg env) → False := by
    intro hc
    have := mcpPrereqPhase_mem cfg env _ hc
    simp at this
  have hnh3 : Action.hyperfine stem cands ∈ exTrace (cliPrereqPhase cfg env) → False := by
    intro hc
    have := cliPrereqPhase_mem cfg env _ hc
    simp at this
  rcases h2 : mcpPrereqPhase cfg env with t2 | t2
  · simp only [hpre, hu, hb, h2, not_true_eq_false, if_false] at hmem
    rcases List.mem_append.mp hmem with hc | hc
    · exact absurd hc hnh1
    · exact absurd (hnh2 (by rw [h2]; exact hc)) not_false
  rcases h3 : cliPrereqPhase cfg env with t3 | t3
  · simp only [hpre, hu, hb, h2, h3, not_true_eq_false, if_false] at hmem
    simp only [List.append_assoc, List.mem_append] at hmem
    rcases hmem with hc | hc | hc
    · exact absurd hc hnh1
    · exact absurd (hnh2 (by rw [h2]; exact hc)) not_false
    · exact absurd (hnh3 (by rw [h3]; exact hc)) not_false
  rcases h5 : mcpBenchPhase cfg env udid (cfg.swiftBin ++ " mcp") binfo with t5 | t5
  · simp only [hpre, hu, hb, h2, h3, h5, not_true_eq_false, if_false] at hmem
    simp only [List.append_assoc, List.mem_append, List.mem_cons,
      List.not_mem_nil, or_false] at hmem
    rcases hmem with hc | hc | hc | hc | hc
    · exact absurd hc hnh1
    · exact absurd (hnh2 (by rw [h2]; exact hc)) not_false
    · exact absurd (hnh3 (by rw [h3]; exact hc)) not_false
    · exact Action.noConfusion hc
    · exact mcpBenchPhase_mem cfg env udid (cfg.swiftBin ++ " mcp") binfo _
        (by rw [h5]; exact hc)
  rcases h6 : cliBenchPhase cfg env udid binfo with t6 | t6 <;>
    simp only [hpre, hu, hb, h2, h3, h5, h6, not_true_eq_false, if_false] at hmem <;>
    simp only [List.append_assoc, List.mem_append, List.mem_cons,
      List.not_mem_nil, or_false] at hmem
  · rcases hmem with hc | hc | hc | hc | hc | hc
    · exact absurd hc hnh1
    · exact absurd (hnh2 (by rw [h2]; exact hc)) not_false
    · exact absurd (hnh3 (by rw [h3]; exact hc)) not_false
    · exact Action.noConfusion hc
    · exact mcpBenchPhase_mem cfg env udid (cfg.swiftBin ++ " mcp") binfo _
        (by rw [h5]; exact hc)
    · exact cliBenchPhase_mem cfg env udid binfo _ (by rw [h6]; exact hc)
  · rcases hmem with hc | hc | hc | hc | hc | hc | hc
    · exact absurd hc hnh1
    · exact absurd (hnh2 (by rw [h2]; exact hc)) not_false
    · exact absurd (hnh3 (by rw [h3]; exact hc)) not_false
    · exact Action.noConfusion hc
    · exact mcpBenchPhase_mem cfg env udid (cfg.swiftBin ++ " mcp") binfo _
        (by rw [h5]; exact hc)
    · exact cliBenchPhase_mem cfg env udid binfo _ (by rw [h6]; exact hc)
    · exact Action.noConfusion hc

/-- C2: the primary (current swift) candidate's label and command are
always placed first in the hyperfine invocation, in both MCP and CLI
benches, regardless of which reference candidates are present or dropped;
and every hyperfine invocation of a run was assembled by one of the two
candidate builders (so its position 0 is the primary candidate). -/
theorem C2_primary_candidate_first
    (tool : String) (params : Option Params) (udid swiftCmd nodeCmd : String)
    (baselineCmd : Option String) (blabel : String) (nodeOk : Bool)
    (name swiftFull baselineFull extLabel : String) (selfCmd : Option String)
    (selfLabel : String) (baselineOk : Bool) :
    (benchCandidates tool params udid swiftCmd nodeCmd baselineCmd blabel nodeOk).head? =
      some ((if baselineCmd.isSome then "swift (current)" else "swift") ++ ": " ++ tool,
        mcp_call_cmd tool params udid swiftCmd) ∧
    (cliBenchCandidates name swiftFull baselineFull extLabel selfCmd selfLabel
        baselineOk).head? =
      some ((if selfCmd.isSome then "swift-cli (current)" else "swift-cli") ++ ": " ++ name,
        perlWrap swiftFull) ∧
    (∀ cfg env stem cands, Action.hyperfine stem cands ∈ (mainRun cfg env).2 →
      (∃ t p u sc nc bc bl ok, cands = benchCandidates t p u sc nc bc bl ok) ∨
      (∃ n sf bf el scmd sl ok, cands = cliBenchCandidates n sf bf el scmd sl ok)) := by
  refine ⟨?_, ?_, ?_⟩
  · unfold benchCandidates
    simp
  · unfold cliBenchCandidates
    simp
  · intro cfg env stem cands hmem
    exact mainRun_hyperfine_bench cfg env stem cands hmem

/-- C2 witness: the theorem at concrete arguments; the third conjunct is
discharged at the first hyperfine invocation of a concrete mcp-mode run. -/
theorem C2_primary_first_witness :
    ((benchCandidates "tap" (some [("x", Val.int 165), ("y", Val.int 269)]) sampleUdid
        sampleServer "node idx.js" none "" true).head? =
      some ((if (none : Option String).isSome then "swift (current)" else "swift") ++
          ": " ++ "tap",
        mcp_call_cmd "tap" (some [("x", Val.int 165), ("y", Val.int 269)]) sampleUdid
          sampleServer)) ∧
    ((∃ t p u sc nc bc bl ok,
        benchCandidates "get_booted_sim_id" none sampleUdid (cfgMcp.swiftBin ++ " mcp")
          cfgMcp.nodeServer (some (baselineBinPath ++ " mcp"))
          (displayLabel envAllOk.changeId envAllOk.description) true =
          benchCandidates t p u sc nc bc bl ok) ∨
      (∃ n sf bf el scmd sl ok,
        benchCandidates "get_booted_sim_id" none sampleUdid (cfgMcp.swiftBin ++ " mcp")
          cfgMcp.nodeServer (some (baselineBinPath ++ " mcp"))
          (displayLabel envAllOk.changeId envAllOk.description) true =
          cliBenchCandidates n sf bf el scmd sl ok)) :=
  have h := C2_primary_candidate_first "tap" (some [("x", Val.int 165), ("y", Val.int 269)])
    sampleUdid sampleServer "node idx.js" none "" true
    "tap" "sw tap" "idb tap" "idb" none "" true
  ⟨h.1, h.2.2 cfgMcp envAllOk "get_booted_sim_id" _ (by decide)⟩

/-! ## C4 -/

/-- C4 counterexample: `get_booted_sim_id` is a supported operation with no
declared parameters, and its invocation string contains the target udid
zero times — not exactly once. -/
theorem C4_counterexample_get_booted_sim_id_no_udid :
    ("get_booted_sim_id", (none : Option Params)) ∈ TOOLS ∧
    countOccs sampleUdid.toList
      (mcp_call_cmd "get_booted_sim_id" none sampleUdid sampleServer).toList = 0 := by
  constructor
  · decide
  · decide

/-- C4 (amended): for every supported operation other than
`get_booted_sim_id` (the one operation that needs no target identifier),
the parameter set serialized into the invocation carries the key `udid`
exactly once for every udid, and the concrete invocation string contains
the sample udid exactly once. -/
theorem C4_amended_udid_exactly_once (tp : String × Option Params)
    (hmem : tp ∈ TOOLS) (hne : tp.1 ≠ "get_booted_sim_id") :
    (∀ udid : String, countKey "udid" ((mcpParams tp.1 tp.2 udid).getD []) = 1) ∧
    countOccs sampleUdid.toList
      (mcp_call_cmd tp.1 tp.2 sampleUdid sampleServer).toList = 1 := by
  fin_cases hmem
  · exact absurd rfl hne
  · exact ⟨fun udid => rfl, by decide⟩
  · exact ⟨fun udid => rfl, by decide⟩
  · exact ⟨fun udid => rfl, by decide⟩
  · exact ⟨fun udid => rfl, by decide⟩

/-- C4 witness: the amended theorem at the `tap` operation. -/
theorem C4_amended_witness :
    (∀ udid : String, countKey "udid"
      ((mcpParams "tap" (some [("x", Val.int 165), ("y", Val.int 269)]) udid).getD []) = 1) ∧
    countOccs sampleUdid.toList
      (mcp_call_cmd "tap" (some [("x", Val.int 165), ("y", Val.int 269)]) sampleUdid
        sampleServer).toList = 1 :=
  C4_amended_udid_exactly_once ("tap", some [("x", Val.int 165), ("y", Val.int 269)])
    (by decide) (by decide)

end Iosef
